import Mathlib

deriving instance DecidableEq for Except

/-
  Verification of the awsm repository's launch-configuration rotation,
  multi-region fan-out, search filtering, naming, ARN parsing and
  address-allocation logic, shallowly embedded from the Go sources
  (aws/launchconfigurations.go, aws/autoscalegroups.go, aws/arns.go,
  the addresses file, and the config package).

  Conventions of the embedding:
  * `time.Time` values are modelled as `Int` timestamps; `t1.After t2`
    becomes `t2 < t1`.
  * Network describe/delete/create calls are parameters: a describe call
    is a function `String → Except GoError (List row)` giving each
    region's response, a mutating call result is `Option GoError`
    (`none` = success).  The calls an operation issues are collected in
    a `List SdkCall` trace.
  * A Go runtime panic (index out of range, assignment to a nil map) is
    modelled by an `Option` result being `none`.
  * Compiled regular expressions are modelled by their match predicate
    `String → Bool`.
-/

namespace Awsm

/-- `models.LaunchConfig` (models/launchconfiguration.go), the marshalled
launch-configuration row.  Field order follows the Go struct declaration;
`CreationTime` is an integer timestamp. -/
structure LaunchConfig where
  Name : String := ""
  ImageName : String := ""
  ImageID : String := ""
  InstanceType : String := ""
  KeyName : String := ""
  SecurityGroups : String := ""
  CreationTime : Int := 0
  CreatedHuman : String := ""
  Region : String := ""
  EbsOptimized : Bool := false
  SnapshotIDs : List String := []
  deriving Repr, DecidableEq, Inhabited

/-- `models.AutoScaleGroup`, with the fields assigned by
`AutoScaleGroup.Marshal` (aws/autoscalegroups.go). -/
structure AutoScaleGroup where
  Name : String := ""
  Class : String := ""
  HealthCheckType : String := ""
  HealthCheckGracePeriod : Int := 0
  LaunchConfig : String := ""
  LoadBalancers : List String := []
  InstanceCount : Int := 0
  DesiredCapacity : Int := 0
  MinSize : Int := 0
  MaxSize : Int := 0
  DefaultCooldown : Int := 0
  AvailabilityZones : List String := []
  SubnetID : String := ""
  SubnetName : String := ""
  VpcID : String := ""
  VpcName : String := ""
  Region : String := ""
  deriving Repr, DecidableEq, Inhabited

/-- A Go `error` value: either an `awserr.Error` (carrying a code and a
message) or any other error (carrying just its message string). -/
inductive GoError where
  | awsErr (code msg : String)
  | plain (msg : String)
  deriving Repr, DecidableEq

/-- The mutating AWS SDK calls the embedded operations can issue. -/
inductive SdkCall where
  | createLaunchConfiguration (name : String)
  | deleteLaunchConfiguration (name region : String)
  | deleteAutoScalingGroup (name region : String) (force : Bool)
  | putMetricAlarm (name region : String)
  | allocateAddress (domain : String) (dryRun : Bool)
  deriving Repr, DecidableEq

/-- The `awserr` unwrapping idiom used after every mutating SDK call:
`if awsErr, ok := err.(awserr.Error); ok { return errors.New(awsErr.Message()) }
return err`. -/
def unwrapAwsErr : GoError → GoError
  | .awsErr _ msg => .plain msg
  | .plain msg => .plain msg

/-- `AutoScaleGroups.LockedLaunchConfigurations`
(aws/autoscalegroups.go:206-213): the set of launch-configuration names
referenced by existing auto-scaling groups, as the key list of the built
map. -/
def LockedLaunchConfigurations (asgs : List AutoScaleGroup) : List String :=
  asgs.foldl (fun names asg =>
    if names.contains asg.LaunchConfig then names else names ++ [asg.LaunchConfig]) []

/-- One in-place removal step
`launchConfigs = append(launchConfigs[:i], launchConfigs[i+1:]...)`
as seen through the backing array shared with the `range` copy: positions
`i .. len-2` receive the old values of positions `i+1 .. len-1`, every
other position keeps its old value, and the array's physical length does
not change. -/
def goSliceRemoveShift (backing : List LaunchConfig) (i len : Nat) : List LaunchConfig :=
  (List.range backing.length).map (fun j =>
    if i ≤ j ∧ j + 1 < len then backing.getD (j + 1) default else backing.getD j default)

/-- The exclusion loop of `RotateLaunchConfigurations`
(aws/launchconfigurations.go:392-398), modelled with Go's `range`
semantics: the iteration count and the read index come from the slice
header captured at loop entry, while the shared backing array is mutated
by the in-place `append` removal and the logical length shrinks. -/
def excludeLockedLoop (excluded : String → Bool) (lcs : List LaunchConfig) :
    List LaunchConfig :=
  let n := lcs.length
  let final := (List.range n).foldl
    (fun (st : List LaunchConfig × Nat) i =>
      let lc := st.1.getD i default
      if excluded lc.Name then (goSliceRemoveShift st.1 i st.2, st.2 - 1) else st)
    (lcs, n)
  final.1.take final.2

/-- Descending insertion by creation time (`LaunchConfigs.Less` is
`l[i].CreationTime.After(l[j].CreationTime)`). -/
def insertByCreationDesc (a : LaunchConfig) : List LaunchConfig → List LaunchConfig
  | [] => [a]
  | b :: rest =>
    if b.CreationTime < a.CreationTime then a :: b :: rest
    else b :: insertByCreationDesc a rest

/-- `sort.Sort(launchConfigs)` under the `LaunchConfigs` ordering
(aws/launchconfigurations.go:418-428): newest first. -/
def sortLaunchConfigs : List LaunchConfig → List LaunchConfig
  | [] => []
  | a :: rest => insertByCreationDesc a (sortLaunchConfigs rest)

/-- The per-region body of `RotateLaunchConfigurations`
(aws/launchconfigurations.go:385-405): run the exclusion loop over the
region's launch configurations, and when more than `retain` remain, sort
newest-first and hand the tail `launchConfigs[cfg.Retain:]` to
`deleteLaunchConfigurations`.  Returns the list of configurations passed
to deletion. -/
def RotateLaunchConfigurationsRegion (excluded : String → Bool) (retain : Nat)
    (launchConfigs : List LaunchConfig) : List LaunchConfig :=
  let remaining := excludeLockedLoop excluded launchConfigs
  if retain < remaining.length then (sortLaunchConfigs remaining).drop retain else []

/-- `RotateLaunchConfigurations` (aws/launchconfigurations.go:367-416):
collect the locked launch-configuration names from the existing
auto-scaling groups, then run the per-region rotation body in every
region over the launch configurations the region's describe call
returns; the result is the union of all configurations passed to
`deleteLaunchConfigurations`. -/
def RotateLaunchConfigurations (asgs : List AutoScaleGroup) (retain : Nat)
    (regions : List String) (fetch : String → List LaunchConfig) : List LaunchConfig :=
  let excludedConfigs := LockedLaunchConfigurations asgs
  (regions.map (fun r =>
    RotateLaunchConfigurationsRegion (fun n => excludedConfigs.contains n) retain (fetch r))).flatten

/-- The deletion-set computation as the specification describes it:
remove every launch configuration whose name is referenced by an
existing auto-scaling group, sort the remainder by creation time
descending, and delete all but the newest `retain` entries.  (Definition
written from the spec's words, for comparison with
`RotateLaunchConfigurationsRegion`.) -/
def specRotateDeletions (excluded : String → Bool) (retain : Nat)
    (launchConfigs : List LaunchConfig) : List LaunchConfig :=
  let remaining := launchConfigs.filter (fun lc => !excluded lc.Name)
  if retain < remaining.length then (sortLaunchConfigs remaining).drop retain else []

/-! ## Reflection-based search filtering (C5) and multi-region fan-out (C4) -/

/-- The string `reflect.Value.String()` yields for each field of a
marshalled `LaunchConfig` row, in struct order: string fields give their
value, and the non-string fields (`time.Time`, `bool`, `[]string`) give
the reflect placeholder text. -/
def reflectFieldStrings (l : LaunchConfig) : List String :=
  [l.Name, l.ImageName, l.ImageID, l.InstanceType, l.KeyName, l.SecurityGroups,
   "<time.Time Value>", l.CreatedHuman, l.Region, "<bool Value>", "<[]string Value>"]

/-- Same, for `AutoScaleGroup` rows: `int` and `[]string` fields give the
reflect placeholder text. -/
def asgReflectFieldStrings (g : AutoScaleGroup) : List String :=
  [g.Name, g.Class, g.HealthCheckType, "<int Value>", g.LaunchConfig,
   "<[]string Value>", "<int Value>", "<int Value>", "<int Value>", "<int Value>",
   "<int Value>", "<[]string Value>", g.SubnetID, g.SubnetName, g.VpcID, g.VpcName,
   g.Region]

/-- The marshal-and-filter stage of `GetRegionLaunchConfigurations`
(aws/launchconfigurations.go:112-129): with a non-empty search term the
labelled loop appends a row as soon as the compiled regex accepts one of
its reflected field strings, otherwise every row is appended.  `rxMatch`
is the compiled regex's match predicate; `rows` are the marshalled rows
of the region's describe response. -/
def GetRegionLaunchConfigurations (search : String) (rxMatch : String → Bool)
    (rows : List LaunchConfig) : List LaunchConfig :=
  if search ≠ "" then rows.filter (fun c => (reflectFieldStrings c).any rxMatch)
  else rows

/-- The marshal-and-filter stage of `GetRegionAutoScaleGroups`
(aws/autoscalegroups.go:83-100), same pattern. -/
def GetRegionAutoScaleGroups (search : String) (rxMatch : String → Bool)
    (rows : List AutoScaleGroup) : List AutoScaleGroup :=
  if search ≠ "" then rows.filter (fun g => (asgReflectFieldStrings g).any rxMatch)
  else rows

/-- The rows a single region's fetch contributes to the shared result
slice: its marshalled rows on success, nothing on failure. -/
def regionRows {α : Type} (x : Except GoError (List α)) : List α :=
  match x with
  | .ok rows => rows
  | .error _ => []

/-- The entry a single region's fetch contributes to the shared error
slice: its error on failure, nothing on success. -/
def regionErr {α : Type} (x : Except GoError (List α)) : Option GoError :=
  match x with
  | .error e => some e
  | .ok _ => none

/-- The multi-region fan-out skeleton shared by `GetLaunchConfigurations`,
`GetAutoScaleGroups`, `GetAlarms` and `GetAddresses`: one task per
region; a region whose fetch fails appends its error to the shared `errs`
slice, a region whose fetch succeeds appends its rows to the shared
result slice; after the join both are returned.  The per-region tasks
are modelled in region-list order. -/
def fanOutRegions {α : Type} (fetch : String → Except GoError (List α))
    (regions : List String) : List α × List GoError :=
  regions.foldl (fun acc region =>
    match fetch region with
    | .error e => (acc.1, acc.2 ++ [e])
    | .ok rows => (acc.1 ++ rows, acc.2)) ([], [])

/-- `GetLaunchConfigurations` (aws/launchconfigurations.go:70-92):
fan out over the regions; each region's describe response is marshalled
and search-filtered before being appended. -/
def GetLaunchConfigurations (regions : List String)
    (describe : String → Except GoError (List LaunchConfig))
    (search : String) (rxMatch : String → Bool) : List LaunchConfig × List GoError :=
  fanOutRegions (fun region => (describe region).map (GetRegionLaunchConfigurations search rxMatch))
    regions

/-- `GetAutoScaleGroups` (aws/autoscalegroups.go:40-62), same fan-out. -/
def GetAutoScaleGroups (regions : List String)
    (describe : String → Except GoError (List AutoScaleGroup))
    (search : String) (rxMatch : String → Bool) : List AutoScaleGroup × List GoError :=
  fanOutRegions (fun region => (describe region).map (GetRegionAutoScaleGroups search rxMatch))
    regions

/-! ## Mutating operations, dry-run handling and error unwrapping (C3, C6, C7) -/

/-- `%s-v%d` naming: the launch-configuration name for a class and
version (aws/launchconfigurations.go:30 and :195). -/
def launchConfigurationNameFormat (cls : String) (version : Nat) : String :=
  cls ++ "-v" ++ toString version

/-- `GetLaunchConfigurationName` (aws/launchconfigurations.go:29-37):
format `class-vN` and look it up in the region; on a lookup error return
the empty string, otherwise the formatted name.  `lookupFails` stands
for `GetLaunchConfigurationsByName` having returned an error. -/
def GetLaunchConfigurationName (lookupFails : Bool) (cls : String) (version : Nat) : String :=
  let name := launchConfigurationNameFormat cls version
  if lookupFails then "" else name

/-- Modelled from the spec: `config.LaunchConfigurationClass.Increment`
is not under `src/`; the spec describes the versioning scheme as the
naming convention `class-vN` where creating a launch configuration first
increments the class's version number. -/
def incrementVersion (version : Nat) : Nat := version + 1

/-- The region loop of `CreateLaunchConfigurations`
(aws/launchconfigurations.go:171-365) restricted to the SDK calls it
issues: the class version is incremented once before the loop, the name
`class-vN` is built from the incremented version, and
`svc.CreateLaunchConfiguration(params)` is called in every region of the
class -- unconditionally: the `dryRun` argument is only forwarded to the
rotation step and never guards the create call. -/
def CreateLaunchConfigurationsCalls (cls : String) (version : Nat)
    (regions : List String) (dryRun : Bool) : List SdkCall :=
  let newVersion := incrementVersion version
  regions.map (fun _ =>
    SdkCall.createLaunchConfiguration (launchConfigurationNameFormat cls newVersion))

/-- `deleteLaunchConfigurations` (aws/launchconfigurations.go:477-496):
for each launch configuration, when `dryRun` is not set issue the delete
call and stop at the first error, returning it unchanged; when `dryRun`
is set, no call is made.  `deleteResult` gives each call's outcome. -/
def deleteLaunchConfigurationsRun (deleteResult : LaunchConfig → Option GoError)
    (dryRun : Bool) : List LaunchConfig → List SdkCall × Option GoError
  | [] => ([], none)
  | lc :: rest =>
    if dryRun then deleteLaunchConfigurationsRun deleteResult dryRun rest
    else
      match deleteResult lc with
      | some e => ([SdkCall.deleteLaunchConfiguration lc.Name lc.Region], some e)
      | none =>
        let r := deleteLaunchConfigurationsRun deleteResult dryRun rest
        (SdkCall.deleteLaunchConfiguration lc.Name lc.Region :: r.1, r.2)

/-- The error-handling tail of the public `DeleteLaunchConfigurations`
(aws/launchconfigurations.go:462-469): the private deletion runs, and a
returned error is unwrapped through the `awserr` idiom. -/
def DeleteLaunchConfigurations (deleteResult : LaunchConfig → Option GoError)
    (dryRun : Bool) (lcList : List LaunchConfig) : List SdkCall × Option GoError :=
  let r := deleteLaunchConfigurationsRun deleteResult dryRun lcList
  (r.1, r.2.map unwrapAwsErr)

/-- `deleteAutoScaleGroups` (aws/autoscalegroups.go:767-797): for each
group, when `dryRun` is not set issue the delete call (with the `force`
flag) and stop at the first error, unwrapping it through the `awserr`
idiom; when `dryRun` is set only the parameters are printed. -/
def deleteAutoScaleGroupsRun (deleteResult : AutoScaleGroup → Option GoError)
    (force dryRun : Bool) : List AutoScaleGroup → List SdkCall × Option GoError
  | [] => ([], none)
  | asg :: rest =>
    if dryRun then deleteAutoScaleGroupsRun deleteResult force dryRun rest
    else
      match deleteResult asg with
      | some e => ([SdkCall.deleteAutoScalingGroup asg.Name asg.Region force],
          some (unwrapAwsErr e))
      | none =>
        let r := deleteAutoScaleGroupsRun deleteResult force dryRun rest
        (SdkCall.deleteAutoScalingGroup asg.Name asg.Region force :: r.1, r.2)

/-- The per-group loop of `createAutoScaleAlarms`
(aws/autoscalegroups.go:422-500) restricted to its `PutMetricAlarm`
calls (scaling-policy action resolution elided): when `dryRun` is not
set issue the call and stop at the first error, unwrapping it through
the `awserr` idiom; when `dryRun` is set only the parameters are
printed. -/
def createAutoScaleAlarmsRun (putResult : AutoScaleGroup → Option GoError)
    (name : String) (dryRun : Bool) : List AutoScaleGroup → List SdkCall × Option GoError
  | [] => ([], none)
  | asg :: rest =>
    if dryRun then createAutoScaleAlarmsRun putResult name dryRun rest
    else
      match putResult asg with
      | some e => ([SdkCall.putMetricAlarm name asg.Region], some (unwrapAwsErr e))
      | none =>
        let r := createAutoScaleAlarmsRun putResult name dryRun rest
        (SdkCall.putMetricAlarm name asg.Region :: r.1, r.2)

/-! ## Nil-map id collectors (C8) -/

/-- A Go `map[string]bool` value: `nil` (the zero value of the named
return `ids`) or a live map created by `make`, carried as its key list. -/
inductive GoMap where
  | nil
  | live (keys : List String)
  deriving Repr, DecidableEq

/-- `ids[k] = true`: assignment to an entry of a nil map is a runtime
panic (`none`); on a live map the key is inserted. -/
def goMapAssign : GoMap → String → Option GoMap
  | .nil, _ => none
  | .live ks, k => some (.live (if ks.contains k then ks else ks ++ [k]))

/-- `LaunchConfigs.LockedSnapshotIds`
(aws/launchconfigurations.go:155-162): the named return `ids` is never
initialised with `make`, and every snapshot id of every configuration is
assigned into it. -/
def LockedSnapshotIds (lcs : List LaunchConfig) : Option GoMap :=
  lcs.foldlM (fun m c => c.SnapshotIDs.foldlM goMapAssign m) GoMap.nil

/-- `LaunchConfigs.LockedImageIds` (aws/launchconfigurations.go:164-169):
likewise with each configuration's image id. -/
def LockedImageIds (lcs : List LaunchConfig) : Option GoMap :=
  lcs.foldlM (fun m c => goMapAssign m c.ImageID) GoMap.nil

/-! ## ARN parsing (C9) -/

/-- `models.ARN`, with the fields `ParseArn` populates. -/
structure ARN where
  Arn : String := ""
  Partition : String := ""
  Service : String := ""
  Region : String := ""
  AccountID : String := ""
  ResourceType : String := ""
  Resource : String := ""
  PolicyID : String := ""
  PolicyName : String := ""
  AutoScalingGroupName : String := ""
  GroupID : String := ""
  deriving Repr, DecidableEq, Inhabited

/-- Split a character list at every occurrence of `sep`; the result
always has at least one (possibly empty) part. -/
def splitCharAux (sep : Char) : List Char → List (List Char)
  | [] => [[]]
  | c :: rest =>
    let r := splitCharAux sep rest
    if c == sep then [] :: r
    else
      match r with
      | [] => [[c]]
      | h :: t => (c :: h) :: t

/-- `strings.SplitN(s, ":", -1)`: all the colon-separated segments. -/
def splitOnColon (s : String) : List String :=
  (splitCharAux ':' s.toList).map (fun cs => String.mk cs)

/-- `strings.TrimLeft(s, cutset)`: drop leading characters while they
are members of the cutset (a character-set trim, not a prefix trim). -/
def goTrimLeft (s cutset : String) : String :=
  String.mk (s.toList.dropWhile (fun c => cutset.toList.contains c))

/-- `ParseArn` (aws/arns.go:18-56).  Fewer than 6 segments is the error
return; an index beyond the segment list (which the `autoscaling`
branches reach on short ARNs) is a runtime panic, modelled as `none`. -/
def parseArn (arnStr : String) : Option (Except String ARN) :=
  let split := splitOnColon arnStr
  if split.length < 6 then
    some (Except.error "Error parsing ARN string!")
  else
    let base : ARN :=
      { Arn := split.getD 0 "", Partition := split.getD 1 "",
        Service := split.getD 2 "", Region := split.getD 3 "",
        AccountID := split.getD 4 "" }
    if split.getD 2 "" = "autoscaling" then
      let rt := split.getD 5 ""
      if rt = "scalingPolicy" then
        if split.length < 9 then none
        else some (Except.ok
          { base with
            ResourceType := rt
            PolicyID := split.getD 6 ""
            AutoScalingGroupName := goTrimLeft (split.getD 7 "") "autoScalingGroupName/"
            PolicyName := goTrimLeft (split.getD 8 "") "policyName/" })
      else if rt = "autoScalingGroup" then
        if split.length < 8 then none
        else some (Except.ok
          { base with
            ResourceType := rt
            GroupID := split.getD 6 ""
            AutoScalingGroupName := split.getD 7 "" })
      else some (Except.ok { base with ResourceType := rt })
    else
      if split.length = 6 then some (Except.ok { base with Resource := split.getD 5 "" })
      else some (Except.ok
        { base with ResourceType := split.getD 5 "", Resource := split.getD 6 "" })

/-! ## Elastic IP allocation (C10) -/

/-- `CreateAddress` (addresses file): validate the region, then the
domain with `!(domain == "vpc" || domain != "classic")`, then issue the
`AllocateAddress` call (whose `DryRun` field carries the flag),
unwrapping an `awserr` failure.  `regionIsValid` stands for
`ValidRegion(region)`; `allocResult` for the allocation call's
outcome. -/
def CreateAddress (regionIsValid : Bool) (region domain : String) (dryRun : Bool)
    (allocResult : Option GoError) : List SdkCall × Option GoError :=
  if !regionIsValid then
    ([], some (GoError.plain ("Region [" ++ region ++ "] is Invalid!")))
  else if ¬(domain = "vpc" ∨ domain ≠ "classic") then
    ([], some (GoError.plain "Domain should be either [vpc] or [classic]."))
  else
    match allocResult with
    | some e => ([SdkCall.allocateAddress domain dryRun], some (unwrapAwsErr e))
    | none => ([SdkCall.allocateAddress domain dryRun], none)

/-! ## Helper lemmas -/

lemma regionRows_ok {α : Type} (rows : List α) :
    regionRows (Except.ok rows : Except GoError (List α)) = rows := rfl

lemma regionRows_error {α : Type} (e : GoError) :
    regionRows (Except.error e : Except GoError (List α)) = [] := rfl

lemma regionErr_ok {α : Type} (rows : List α) :
    regionErr (Except.ok rows : Except GoError (List α)) = none := rfl

lemma regionErr_error {α : Type} (e : GoError) :
    regionErr (Except.error e : Except GoError (List α)) = some e := rfl

lemma regionRows_map {α β : Type} (f : List α → List β) (x : Except GoError (List α))
    (hf : f [] = []) : regionRows (x.map f) = f (regionRows x) := by
  cases x with
  | ok rows => rfl
  | error e => simp [Except.map, regionRows, hf]

lemma regionErr_map {α β : Type} (f : List α → List β) (x : Except GoError (List α)) :
    regionErr (x.map f) = regionErr x := by
  cases x <;> rfl

lemma fanOut_foldl_acc {α : Type} (fetch : String → Except GoError (List α)) :
    ∀ (regions : List String) (acc : List α × List GoError),
      regions.foldl (fun acc region =>
          match fetch region with
          | .error e => (acc.1, acc.2 ++ [e])
          | .ok rows => (acc.1 ++ rows, acc.2)) acc
        = (acc.1 ++ (regions.map (fun r => regionRows (fetch r))).flatten,
           acc.2 ++ regions.filterMap (fun r => regionErr (fetch r))) := by
  intro regions
  induction regions with
  | nil => intro acc; simp
  | cons r rs ih =>
    intro acc
    cases h : fetch r with
    | error e =>
      simp only [List.foldl_cons, List.map_cons, List.flatten_cons, List.filterMap_cons, h,
        regionRows_error, regionErr_error]
      rw [ih]
      simp
    | ok rows =>
      simp only [List.foldl_cons, List.map_cons, List.flatten_cons, List.filterMap_cons, h,
        regionRows_ok, regionErr_ok]
      rw [ih]
      simp

lemma fanOutRegions_eq {α : Type} (fetch : String → Except GoError (List α))
    (regions : List String) :
    fanOutRegions fetch regions
      = ((regions.map (fun r => regionRows (fetch r))).flatten,
         regions.filterMap (fun r => regionErr (fetch r))) := by
  unfold fanOutRegions
  rw [fanOut_foldl_acc]
  simp

lemma GetRegionLaunchConfigurations_nil (search : String) (rxMatch : String → Bool) :
    GetRegionLaunchConfigurations search rxMatch [] = [] := by
  simp [GetRegionLaunchConfigurations]

lemma GetRegionAutoScaleGroups_nil (search : String) (rxMatch : String → Bool) :
    GetRegionAutoScaleGroups search rxMatch [] = [] := by
  simp [GetRegionAutoScaleGroups]

/-! ## The claims -/

/-- Claim C1 (refuted, code bug): the rotation is supposed never to pass a
launch configuration referenced by a live auto-scaling group to
`deleteLaunchConfigurations`, but the exclusion loop removes elements of
the slice it is ranging over, so of two consecutively stored locked
configurations the second survives the exclusion pass; here `www-v1` and
`www-v2` are both referenced by auto-scaling groups, yet rotation with
retention 2 passes `www-v2` -- a locked configuration -- to deletion. -/
theorem rotateLaunchConfigurations_deletes_locked_config :
    (RotateLaunchConfigurations
        [{ Name := "www", LaunchConfig := "www-v1", Region := "us-east-1" },
         { Name := "www2", LaunchConfig := "www-v2", Region := "us-east-1" }] 2 ["us-east-1"]
        (fun _ => [{ Name := "www-v1", CreationTime := 1 },
                   { Name := "www-v2", CreationTime := 2 },
                   { Name := "www-v3", CreationTime := 3 },
                   { Name := "www-v4", CreationTime := 4 }]))
      = [{ Name := "www-v2", CreationTime := 2 }] ∧
    (LockedLaunchConfigurations
        [{ Name := "www", LaunchConfig := "www-v1", Region := "us-east-1" },
         { Name := "www2", LaunchConfig := "www-v2", Region := "us-east-1" }]).contains
      "www-v2" = true := by
  decide

/-- Claim C2 (refuted, code bug): the deletion set is supposed to be
"filter out every launch configuration referenced by an auto-scaling
group, sort the rest newest-first, drop the newest `Retain`"
(`specRotateDeletions`), but on the same input as C1 the code's
exclusion loop fails to remove `www-v2`, so the code deletes
`[www-v2]` where the described algorithm deletes nothing. -/
theorem rotateLaunchConfigurations_deviates_from_spec_algorithm :
    RotateLaunchConfigurationsRegion
        (fun n => (LockedLaunchConfigurations
          [{ Name := "www", LaunchConfig := "www-v1", Region := "us-east-1" },
           { Name := "www2", LaunchConfig := "www-v2", Region := "us-east-1" }]).contains n) 2
        [{ Name := "www-v1", CreationTime := 1 },
         { Name := "www-v2", CreationTime := 2 },
         { Name := "www-v3", CreationTime := 3 },
         { Name := "www-v4", CreationTime := 4 }]
      = [{ Name := "www-v2", CreationTime := 2 }] ∧
    specRotateDeletions
        (fun n => (LockedLaunchConfigurations
          [{ Name := "www", LaunchConfig := "www-v1", Region := "us-east-1" },
           { Name := "www2", LaunchConfig := "www-v2", Region := "us-east-1" }]).contains n) 2
        [{ Name := "www-v1", CreationTime := 1 },
         { Name := "www-v2", CreationTime := 2 },
         { Name := "www-v3", CreationTime := 3 },
         { Name := "www-v4", CreationTime := 4 }]
      = [] := by
  decide

/-- Claim C3 (refuted, code bug): `deleteLaunchConfigurations`,
`deleteAutoScaleGroups` and `createAutoScaleAlarms` issue no mutating
call under `dryRun`, but `CreateLaunchConfigurations` calls
`svc.CreateLaunchConfiguration` unconditionally -- with `dryRun = true`
it still issues the create call in every region. -/
theorem createLaunchConfigurations_ignores_dryRun :
    CreateLaunchConfigurationsCalls "www" 1 ["us-east-1"] true
      = [SdkCall.createLaunchConfiguration "www-v2"] ∧
    (∀ dres lcs, (deleteLaunchConfigurationsRun dres true lcs).1 = []) ∧
    (∀ dres force asgList, (deleteAutoScaleGroupsRun dres force true asgList).1 = []) ∧
    (∀ pres nm asgList, (createAutoScaleAlarmsRun pres nm true asgList).1 = []) := by
  refine ⟨by decide, ?_, ?_, ?_⟩
  · intro dres lcs
    induction lcs with
    | nil => rfl
    | cons a t ih => simpa [deleteLaunchConfigurationsRun] using ih
  · intro dres force asgList
    induction asgList with
    | nil => rfl
    | cons a t ih => simpa [deleteAutoScaleGroupsRun] using ih
  · intro pres nm asgList
    induction asgList with
    | nil => rfl
    | cons a t ih => simpa [createAutoScaleAlarmsRun] using ih

/-- Claim C4 (confirmed): the multi-region fan-out returns, for every
assignment of per-region describe outcomes, the concatenation of the
filtered rows of every successful region together with the list of the
errors of every failed region -- a region's failure contributes only an
error-list entry and discards no other region's rows, and the return
value carries no per-region success information beyond those two
aggregate lists. -/
theorem multiRegion_fanout_aggregates :
    (∀ (regions : List String) (describe : String → Except GoError (List LaunchConfig))
        (search : String) (rxMatch : String → Bool),
      GetLaunchConfigurations regions describe search rxMatch
        = ((regions.map (fun r =>
              GetRegionLaunchConfigurations search rxMatch (regionRows (describe r)))).flatten,
           regions.filterMap (fun r => regionErr (describe r)))) ∧
    (∀ (regions : List String) (describe : String → Except GoError (List AutoScaleGroup))
        (search : String) (rxMatch : String → Bool),
      GetAutoScaleGroups regions describe search rxMatch
        = ((regions.map (fun r =>
              GetRegionAutoScaleGroups search rxMatch (regionRows (describe r)))).flatten,
           regions.filterMap (fun r => regionErr (describe r)))) := by
  constructor
  · intro regions describe search rxMatch
    unfold GetLaunchConfigurations
    rw [fanOutRegions_eq]
    simp only [fun x => regionRows_map (GetRegionLaunchConfigurations search rxMatch) x
      (GetRegionLaunchConfigurations_nil search rxMatch), regionErr_map]
  · intro regions describe search rxMatch
    unfold GetAutoScaleGroups
    rw [fanOutRegions_eq]
    simp only [fun x => regionRows_map (GetRegionAutoScaleGroups search rxMatch) x
      (GetRegionAutoScaleGroups_nil search rxMatch), regionErr_map]

/-- Claim C5 (confirmed): with an empty search term every marshalled row
is included unchanged; with a non-empty search term a row is included in
the region's contribution exactly when the compiled regex (modelled by
its match predicate `rxMatch`) accepts the reflected string value of at
least one of the row's struct fields. -/
theorem region_search_filter_spec :
    (∀ (rxMatch : String → Bool) (rows : List LaunchConfig),
      GetRegionLaunchConfigurations "" rxMatch rows = rows) ∧
    (∀ (search : String) (rxMatch : String → Bool) (rows : List LaunchConfig)
        (c : LaunchConfig), search ≠ "" →
      (c ∈ GetRegionLaunchConfigurations search rxMatch rows ↔
        c ∈ rows ∧ (reflectFieldStrings c).any rxMatch = true)) := by
  constructor
  · intro rxMatch rows
    simp [GetRegionLaunchConfigurations]
  · intro search rxMatch rows c h
    simp [GetRegionLaunchConfigurations, h, List.mem_filter]

/-- Witness for C5 at concrete inputs: the empty search keeps the row
list unchanged, and a non-empty search includes a row exactly under a
field match. -/
theorem region_search_filter_spec_witness :
    GetRegionLaunchConfigurations "" (fun _ => false)
        [{ Name := "www-v1" }] = [{ Name := "www-v1" }] ∧
    (({ Name := "www-v1" } : LaunchConfig)
        ∈ GetRegionLaunchConfigurations "www" (fun s => s == "www-v1") [{ Name := "www-v1" }] ↔
      ({ Name := "www-v1" } : LaunchConfig) ∈ ([{ Name := "www-v1" }] : List LaunchConfig) ∧
        (reflectFieldStrings { Name := "www-v1" }).any (fun s => s == "www-v1") = true) :=
  ⟨region_search_filter_spec.1 (fun _ => false) [{ Name := "www-v1" }],
   region_search_filter_spec.2 "www" (fun s => s == "www-v1") [{ Name := "www-v1" }]
     { Name := "www-v1" } (by decide)⟩

/-- Claim C6 (confirmed, with `config.Increment` modelled from the spec):
`GetLaunchConfigurationName` resolves the name `class-vN` on a
successful lookup, and the create path increments the version before the
create call, so every region's create call uses the name built from the
incremented version. -/
theorem launch_configuration_naming_spec :
    (∀ (cls : String) (version : Nat),
      GetLaunchConfigurationName false cls version = cls ++ "-v" ++ toString version) ∧
    (∀ (cls : String) (version : Nat) (regions : List String) (dryRun : Bool),
      CreateLaunchConfigurationsCalls cls version regions dryRun
        = regions.map (fun _ =>
            SdkCall.createLaunchConfiguration (cls ++ "-v" ++ toString (version + 1)))) := by
  constructor
  · intro cls version
    simp [GetLaunchConfigurationName, launchConfigurationNameFormat]
  · intro cls version regions dryRun
    simp [CreateLaunchConfigurationsCalls, launchConfigurationNameFormat, incrementVersion]

/-- Claim C7 (confirmed): an `awserr.Error` from a mutating SDK call is
replaced by a new error carrying only its message string, any other
error is returned unchanged; `DeleteLaunchConfigurations` applies this
to the private deletion's error, and `deleteAutoScaleGroups` applies it
to a failing delete call's error. -/
theorem sdk_error_unwrap_spec :
    (∀ code msg, unwrapAwsErr (GoError.awsErr code msg) = GoError.plain msg) ∧
    (∀ e : GoError, (∀ code msg, e ≠ GoError.awsErr code msg) → unwrapAwsErr e = e) ∧
    (∀ dres dryRun lcs, (DeleteLaunchConfigurations dres dryRun lcs).2
        = (deleteLaunchConfigurationsRun dres dryRun lcs).2.map unwrapAwsErr) ∧
    (∀ dres (force : Bool) (asg : AutoScaleGroup) (e : GoError), dres asg = some e →
        (deleteAutoScaleGroupsRun dres force false [asg]).2 = some (unwrapAwsErr e)) := by
  refine ⟨fun code msg => rfl, ?_, fun dres dryRun lcs => rfl, ?_⟩
  · intro e h
    cases e with
    | awsErr code msg => exact absurd rfl (h code msg)
    | plain msg => rfl
  · intro dres force asg e h
    simp [deleteAutoScaleGroupsRun, h]

/-- Witness for C7 at concrete inputs: a non-aws error is unchanged, and
a failing delete on a single auto-scaling group surfaces the aws error's
message only. -/
theorem sdk_error_unwrap_spec_witness :
    unwrapAwsErr (GoError.plain "boom") = GoError.plain "boom" ∧
    (deleteAutoScaleGroupsRun (fun _ => some (GoError.awsErr "Throttling" "Rate exceeded"))
        false false [{ Name := "www", Region := "us-east-1" }]).2
      = some (GoError.plain "Rate exceeded") :=
  ⟨sdk_error_unwrap_spec.2.1 (GoError.plain "boom") (fun _ _ h => GoError.noConfusion h),
   sdk_error_unwrap_spec.2.2.2 (fun _ => some (GoError.awsErr "Throttling" "Rate exceeded"))
     false { Name := "www", Region := "us-east-1" }
     (GoError.awsErr "Throttling" "Rate exceeded") rfl⟩

/-- Claim C8 (refuted, code bug): `LockedSnapshotIds` and
`LockedImageIds` never initialise their named return map with `make`, so
the first key assignment is an assignment to an entry of a nil map -- a
runtime panic on every list holding a snapshot id (resp. on every
non-empty list); only the empty list returns (the nil map). -/
theorem lockedIds_nil_map_panics :
    LockedSnapshotIds [{ Name := "www-v1", SnapshotIDs := ["snap-1"] }] = none ∧
    LockedImageIds [{ Name := "www-v1", ImageID := "ami-1" }] = none ∧
    LockedSnapshotIds [] = some GoMap.nil ∧ LockedImageIds [] = some GoMap.nil := by
  decide

/-- Claim C9 counterexample: the autoscaling `scalingPolicy` ARN
`a:b:autoscaling:d:e:scalingPolicy` has exactly 6 colon-separated
segments, yet `ParseArn` reads segments 7 through 9 and panics (index
out of range) instead of returning a populated ARN. -/
theorem parseArn_panics_on_short_autoscaling_arn :
    parseArn "a:b:autoscaling:d:e:scalingPolicy" = none ∧
    (splitOnColon "a:b:autoscaling:d:e:scalingPolicy").length = 6 := by
  decide

/-- Claim C9 as amended: `ParseArn` returns its parse error exactly on
fewer than 6 segments, and returns a populated ARN without panicking for
every string with at least 6 segments whose service segment is not
"autoscaling", or whose autoscaling resource type is neither
`scalingPolicy` nor `autoScalingGroup`, or which carries enough segments
for those two resource types (at least 9 resp. 8); on shorter
autoscaling ARNs of those two resource types it panics. -/
theorem parseArn_amended (s : String) :
    ((splitOnColon s).length < 6 →
      parseArn s = some (Except.error "Error parsing ARN string!")) ∧
    (6 ≤ (splitOnColon s).length → (splitOnColon s).getD 2 "" ≠ "autoscaling" →
      ∃ a, parseArn s = some (Except.ok a)) ∧
    (6 ≤ (splitOnColon s).length → (splitOnColon s).getD 2 "" = "autoscaling" →
      ((splitOnColon s).getD 5 "" = "scalingPolicy" → 9 ≤ (splitOnColon s).length) →
      ((splitOnColon s).getD 5 "" = "autoScalingGroup" → 8 ≤ (splitOnColon s).length) →
      ∃ a, parseArn s = some (Except.ok a)) := by
  unfold parseArn
  refine ⟨?_, ?_, ?_⟩
  · intro h
    simp [h]
  · intro h6 hsvc
    rw [if_neg (by omega), if_neg hsvc]
    by_cases hl : (splitOnColon s).length = 6
    · rw [if_pos hl]; exact ⟨_, rfl⟩
    · rw [if_neg hl]; exact ⟨_, rfl⟩
  · intro h6 hsvc hsp hag
    rw [if_neg (by omega), if_pos hsvc]
    by_cases h5 : (splitOnColon s).getD 5 "" = "scalingPolicy"
    · rw [if_pos h5, if_neg (by have := hsp h5; omega)]
      exact ⟨_, rfl⟩
    · rw [if_neg h5]
      by_cases h5' : (splitOnColon s).getD 5 "" = "autoScalingGroup"
      · rw [if_pos h5', if_neg (by have := hag h5'; omega)]
        exact ⟨_, rfl⟩
      · rw [if_neg h5']
        exact ⟨_, rfl⟩

/-- Witness for the amended C9 at concrete inputs: a 6-segment
autoscaling ARN of an unrecognised resource type parses to a populated
ARN, and a string without colons gives the parse error. -/
theorem parseArn_amended_witness :
    (6 ≤ (splitOnColon "a:b:autoscaling:d:e:other").length ∧
      ∃ a, parseArn "a:b:autoscaling:d:e:other" = some (Except.ok a)) ∧
    parseArn "ab" = some (Except.error "Error parsing ARN string!") := by
  refine ⟨⟨by decide, ?_⟩, ?_⟩
  · exact (parseArn_amended "a:b:autoscaling:d:e:other").2.2 (by decide) (by decide)
      (fun h => absurd h (by decide)) (fun h => absurd h (by decide))
  · exact (parseArn_amended "ab").1 (by decide)

/-- Claim C10 (refuted, code bug): the inverted condition
`!(domain == "vpc" || domain != "classic")` rejects exactly the domain
"classic" -- one of the two values the error message allows -- and
proceeds to allocate for any other string, including invalid domains. -/
theorem createAddress_domain_validation_inverted :
    CreateAddress true "us-east-1" "classic" false none
      = ([], some (GoError.plain "Domain should be either [vpc] or [classic].")) ∧
    CreateAddress true "us-east-1" "bogus-domain" false none
      = ([SdkCall.allocateAddress "bogus-domain" false], none) ∧
    CreateAddress true "us-east-1" "vpc" false none
      = ([SdkCall.allocateAddress "vpc" false], none) := by
  decide

end Awsm
